import Mathlib

/-!
Shallow embedding of `genswaptrades` (src/genswaptrades/trades.py) over exact
rationals. Machine floats are modelled by `ℚ`; `np.round(x, d)` is modelled by
`roundTo d` (round half to even, numpy's rounding rule on exact inputs). The
input CSV is modelled as an already-parsed list of `(notional, rate)` pairs;
`assert` failures and the final invariant check are modelled with `Except`.
-/

set_option autoImplicit false

namespace GenSwapTrades

/-- Round a rational to the nearest integer, ties to even (the rule of
numpy's `rint`, which underlies `np.round`). -/
def rint (q : ℚ) : ℤ :=
  let f := ⌊q⌋
  if q - f < 1/2 then f
  else if 1/2 < q - f then f + 1
  else if f % 2 = 0 then f else f + 1

/-- Model of `np.round(x, d)`: scale by `10^d`, round to nearest integer
(ties to even), unscale. -/
def roundTo (d : ℕ) (x : ℚ) : ℚ := (rint (x * 10 ^ d) : ℚ) / 10 ^ d

/-- One generated trade: the tuple `(trade no., notional, rate, cashflow)`
returned by `generate_trades`. -/
structure Trade where
  tradeNo : ℕ
  notional : ℚ
  rate : ℚ
  cashflow : ℚ
  deriving DecidableEq, Repr

/-- Failures of `generate_trades`. The first three model the `assert`
messages of the validation phase (each constructor carries exactly the values
the corresponding f-string interpolates); the last models the final zero-sum
`assert` (an internal-invariant violation). -/
inductive Err where
  | equalRates (r1 r2 : ℚ)
  | zeroRate (r1 r2 : ℚ)
  | rateOutOfBounds (min_rate max_rate rate : ℚ)
  | internalInvariant (notional_sum cashflow_sum : ℚ)
  deriving DecidableEq, Repr

/-- Whether an error is a configuration-validation failure (as opposed to the
final internal-invariant violation). -/
def Err.isInvalidConfiguration : Err → Bool
  | .internalInvariant _ _ => false
  | _ => true

instance {ε α : Type} [DecidableEq ε] [DecidableEq α] : DecidableEq (Except ε α)
  | .ok a, .ok b => decidable_of_iff (a = b) (by simp)
  | .ok _, .error _ => isFalse (by simp)
  | .error _, .ok _ => isFalse (by simp)
  | .error e, .error f => decidable_of_iff (e = f) (by simp)

/-- Default fallback pair when `additional_trade_rates` is not supplied:
`[max_rate, max_rate - 0.1 * (max_rate - min_rate)]`. -/
def defaultRates (min_rate max_rate : ℚ) : ℚ × ℚ :=
  (max_rate, max_rate - 1/10 * (max_rate - min_rate))

/-- The bound test of the validation loop: `min_rate <= rate <= max_rate`
on the raw (unrounded) bounds. -/
def rateInBounds (min_rate max_rate r : ℚ) : Bool :=
  decide (min_rate ≤ r) && decide (r ≤ max_rate)

/-- The validation loop `for rate in additional_trade_rates: assert ...`,
checking the first rate and then the second against `[min_rate, max_rate]`. -/
def checkBounds (min_rate max_rate : ℚ) (p : ℚ × ℚ) : Except Err (ℚ × ℚ) :=
  if rateInBounds min_rate max_rate p.1 = false then
    .error (.rateOutOfBounds min_rate max_rate p.1)
  else if rateInBounds min_rate max_rate p.2 = false then
    .error (.rateOutOfBounds min_rate max_rate p.2)
  else .ok p

/-- The validation phase of `generate_trades` (lines 41-51): resolve the
fallback pair (default if absent), assert distinctness and non-zero for a
supplied pair, and assert the bounds for the pair to be used. -/
def checkRates (additional_trade_rates : Option (ℚ × ℚ))
    (min_rate max_rate : ℚ) : Except Err (ℚ × ℚ) :=
  match additional_trade_rates with
  | none => checkBounds min_rate max_rate (defaultRates min_rate max_rate)
  | some (a, b) =>
    if a = b then .error (.equalRates a b)
    else if a = 0 ∨ b = 0 then .error (.zeroRate a b)
    else checkBounds min_rate max_rate (a, b)

/-- The pair of rates that the two-trade path would use: the supplied pair if
present, the default pair otherwise. -/
def ratesUsed (additional_trade_rates : Option (ℚ × ℚ))
    (min_rate max_rate : ℚ) : ℚ × ℚ :=
  additional_trade_rates.getD (defaultRates min_rate max_rate)

/-- Lines 54-55: `min_rate` and `max_rate` are themselves rounded to 8
decimal places before the single-versus-two-trade decision. -/
def boundsForDecision (min_rate max_rate : ℚ) : ℚ × ℚ :=
  (roundTo 8 min_rate, roundTo 8 max_rate)

/-- Aggregate phase: per-transaction cashflow `notional * rate` rounded to 2
decimals, then `notional_rounded_sum` and `cashflow_rounded_sum`, each sum
rounded to 2 decimals. -/
def aggregates (txs : List (ℚ × ℚ)) : ℚ × ℚ :=
  (roundTo 2 (txs.map Prod.fst).sum,
   roundTo 2 (txs.map (fun t => roundTo 2 (t.1 * t.2))).sum)

/-- The single-trade candidate rate: `round(cashflow_sum / notional_sum, 8)`
when the notional sum is non-zero, `none` (modelling `np.inf`) otherwise. -/
def candidateRate (notional_sum cashflow_sum : ℚ) : Option ℚ :=
  if notional_sum = 0 then none else some (roundTo 8 (cashflow_sum / notional_sum))

/-- The decision test `next_trade_rounded_rate < min_rate or
next_trade_rounded_rate > max_rate`; `none` (infinity) always compares above
`max_rate`. -/
def outsideBounds (min_rate max_rate : ℚ) : Option ℚ → Bool
  | none => true
  | some c => decide (c < min_rate) || decide (max_rate < c)

/-- The two-trade construction at fixed rates `r1, r2` (lines 88-107):
`n1 = round((S*r2 - C)/(r1 - r2), 2)`, `n2 = round(-n1 - S, 2)`, each
cashflow `round(n * r, 2)`, sequence numbers `n+1`, `n+2`. -/
def twoTrades (S C r1 r2 : ℚ) (n : ℕ) : List Trade :=
  let n1 := roundTo 2 ((S * r2 - C) / (r1 - r2))
  let n2 := roundTo 2 (-n1 - S)
  [⟨n + 1, n1, r1, roundTo 2 (n1 * r1)⟩,
   ⟨n + 2, n2, r2, roundTo 2 (n2 * r2)⟩]

/-- The single-trade construction (lines 109-116): notional `-S`, rate
`round(C / S, 8)`, cashflow `-C`, sequence number `n+1`. -/
def singleTrade (S C : ℚ) (n : ℕ) : List Trade :=
  [⟨n + 1, -S, roundTo 8 (C / S), -C⟩]

/-- The decision between the single-trade and the two-trade path, against the
8-decimal-rounded bounds. -/
def newTrades (S C min_rate max_rate r1 r2 : ℚ) (n : ℕ) : List Trade :=
  if outsideBounds min_rate max_rate (candidateRate S C) then twoTrades S C r1 r2 n
  else singleTrade S C n

/-- The final accumulation loop: each generated trade's notional and cashflow
is rounded to 2 decimals and added to the running sums. -/
def postSums (S C : ℚ) (ts : List Trade) : ℚ × ℚ :=
  (S + (ts.map (fun t => roundTo 2 t.notional)).sum,
   C + (ts.map (fun t => roundTo 2 t.cashflow)).sum)

/-- The final zero-sum `assert` (lines 124-125): both post sums must be below
`0.01` in absolute value, otherwise the run aborts. -/
def finishTrades (S C : ℚ) (ts : List Trade) : Except Err (List Trade) :=
  if |(postSums S C ts).1| < 1/100 ∧ |(postSums S C ts).2| < 1/100 then .ok ts
  else .error (.internalInvariant (postSums S C ts).1 (postSums S C ts).2)

/-- The full pipeline of `generate_trades`: validate the configuration, round
the bounds to 8 decimals, aggregate the input, exit early when both rounded
sums are zero, otherwise generate the trade(s) and run the final check. -/
def generate_trades (txs : List (ℚ × ℚ)) (min_rate max_rate : ℚ)
    (additional_trade_rates : Option (ℚ × ℚ)) : Except Err (List Trade) :=
  match checkRates additional_trade_rates min_rate max_rate with
  | .error e => .error e
  | .ok (r1, r2) =>
    if (aggregates txs).1 = 0 ∧ (aggregates txs).2 = 0 then .ok []
    else
      finishTrades (aggregates txs).1 (aggregates txs).2
        (newTrades (aggregates txs).1 (aggregates txs).2
          (boundsForDecision min_rate max_rate).1
          (boundsForDecision min_rate max_rate).2 r1 r2 txs.length)

/-- Offending-value condition for each validation error: the values carried by
the error (modelling the values interpolated into the `assert` message) are
exactly the configuration values that triggered the failure. -/
def Err.mentionsOffending (min_rate max_rate : ℚ) (add : Option (ℚ × ℚ)) : Err → Prop
  | .equalRates a b => add = some (a, b) ∧ a = b
  | .zeroRate a b => add = some (a, b) ∧ (a = 0 ∨ b = 0)
  | .rateOutOfBounds m M r => m = min_rate ∧ M = max_rate ∧
      ¬(min_rate ≤ r ∧ r ≤ max_rate) ∧
      (r = (ratesUsed add min_rate max_rate).1 ∨ r = (ratesUsed add min_rate max_rate).2)
  | .internalInvariant _ _ => False

/-- Right-justify a string in a field of `w` characters, padding with spaces
on the left (Python's fixed-width numeric formatting). -/
def padLeft (w : ℕ) (s : String) : String :=
  String.mk (List.replicate (w - s.length) ' ') ++ s

/-- Pad a digit string with leading zeros up to `w` characters. -/
def padZeroLeft (w : ℕ) (s : String) : String :=
  String.mk (List.replicate (w - s.length) '0') ++ s

/-- Python's `"{:w.pf}".format(x)` on our rational model: render `x` in fixed
point with `prec` fractional digits (rounded half to even), right-justified to
`width` characters. -/
def formatFixed (width prec : ℕ) (x : ℚ) : String :=
  let scaled : ℤ := rint (x * 10 ^ prec)
  let a : ℕ := scaled.natAbs
  let digits := toString (a / 10 ^ prec) ++ "." ++ padZeroLeft prec (toString (a % 10 ^ prec))
  padLeft width ((if scaled < 0 then "-" else "") ++ digits)

/-- One output line per trade: the format string
`"Trade " + no + "   " + notional(15.2f) + "  " + rate(11.8f) + "  " + cashflow(15.2f)`. -/
def tradeLine (t : Trade) : String :=
  "Trade " ++ toString t.tradeNo ++ "   " ++ formatFixed 15 2 t.notional
    ++ "  " ++ formatFixed 11 8 t.rate ++ "  " ++ formatFixed 15 2 t.cashflow

/-- `format_trades`: one line per trade, joined with newlines. -/
def format_trades (trades : List Trade) : String :=
  String.intercalate "\n" (trades.map tradeLine)

/-- `print_trades` modelled as the text written to stdout: the formatted
trades followed by `print`'s newline when the list is non-empty, nothing at
all when it is empty. -/
def print_trades (trades : List Trade) : String :=
  if trades.isEmpty then "" else format_trades trades ++ "\n"

theorem rint_intCast (k : ℤ) : rint (k : ℚ) = k := by
  simp [rint]

theorem roundTo_exists_int (d : ℕ) (x : ℚ) :
    ∃ k : ℤ, roundTo d x = (k : ℚ) / 10 ^ d :=
  ⟨rint (x * 10 ^ d), rfl⟩

theorem roundTo_eq_self {d : ℕ} {x : ℚ} (h : ∃ k : ℤ, x = (k : ℚ) / 10 ^ d) :
    roundTo d x = x := by
  obtain ⟨k, rfl⟩ := h
  have h10 : ((10 : ℚ) ^ d) ≠ 0 := by positivity
  rw [roundTo, div_mul_cancel₀ _ h10, rint_intCast]

theorem roundTo_idem (d : ℕ) (x : ℚ) : roundTo d (roundTo d x) = roundTo d x :=
  roundTo_eq_self (roundTo_exists_int d x)

theorem exists_int_neg {d : ℕ} {x : ℚ} (h : ∃ k : ℤ, x = (k : ℚ) / 10 ^ d) :
    ∃ k : ℤ, -x = (k : ℚ) / 10 ^ d := by
  obtain ⟨k, rfl⟩ := h
  exact ⟨-k, by push_cast; ring⟩

theorem exists_int_add {d : ℕ} {x y : ℚ} (hx : ∃ k : ℤ, x = (k : ℚ) / 10 ^ d)
    (hy : ∃ k : ℤ, y = (k : ℚ) / 10 ^ d) :
    ∃ k : ℤ, x + y = (k : ℚ) / 10 ^ d := by
  obtain ⟨k, rfl⟩ := hx
  obtain ⟨m, rfl⟩ := hy
  exact ⟨k + m, by push_cast; ring⟩

theorem aggregates_fst_int (txs : List (ℚ × ℚ)) :
    ∃ k : ℤ, (aggregates txs).1 = (k : ℚ) / 10 ^ 2 :=
  roundTo_exists_int 2 _

theorem aggregates_snd_int (txs : List (ℚ × ℚ)) :
    ∃ k : ℤ, (aggregates txs).2 = (k : ℚ) / 10 ^ 2 :=
  roundTo_exists_int 2 _

theorem postSums_singleTrade (S C : ℚ) (n : ℕ)
    (hS : ∃ k : ℤ, S = (k : ℚ) / 10 ^ 2) (hC : ∃ k : ℤ, C = (k : ℚ) / 10 ^ 2) :
    postSums S C (singleTrade S C n) = (0, 0) := by
  simp [postSums, singleTrade, roundTo_eq_self (exists_int_neg hS),
    roundTo_eq_self (exists_int_neg hC)]

theorem postSums_twoTrades_fst (S C r1 r2 : ℚ) (n : ℕ)
    (hS : ∃ k : ℤ, S = (k : ℚ) / 10 ^ 2) :
    (postSums S C (twoTrades S C r1 r2 n)).1 = 0 := by
  have hn1 : ∃ k : ℤ, roundTo 2 ((S * r2 - C) / (r1 - r2)) = (k : ℚ) / 10 ^ 2 :=
    roundTo_exists_int 2 _
  have hrest : ∃ k : ℤ, -roundTo 2 ((S * r2 - C) / (r1 - r2)) - S = (k : ℚ) / 10 ^ 2 := by
    rw [sub_eq_add_neg]
    exact exists_int_add (exists_int_neg hn1) (exists_int_neg hS)
  simp only [postSums, twoTrades, List.map_cons, List.map_nil, List.sum_cons,
    List.sum_nil]
  rw [roundTo_idem, roundTo_idem, roundTo_eq_self hrest]
  ring

theorem generate_trades_ok_unfold (txs : List (ℚ × ℚ)) (min_rate max_rate r1 r2 : ℚ)
    (add : Option (ℚ × ℚ)) (hcr : checkRates add min_rate max_rate = .ok (r1, r2)) :
    generate_trades txs min_rate max_rate add =
      if (aggregates txs).1 = 0 ∧ (aggregates txs).2 = 0 then .ok []
      else
        finishTrades (aggregates txs).1 (aggregates txs).2
          (newTrades (aggregates txs).1 (aggregates txs).2
            (boundsForDecision min_rate max_rate).1
            (boundsForDecision min_rate max_rate).2 r1 r2 txs.length) := by
  unfold generate_trades
  rw [hcr]

theorem generate_trades_error_unfold (txs : List (ℚ × ℚ)) (min_rate max_rate : ℚ)
    (add : Option (ℚ × ℚ)) (e : Err) (hcr : checkRates add min_rate max_rate = .error e) :
    generate_trades txs min_rate max_rate add = .error e := by
  unfold generate_trades
  rw [hcr]

theorem rint_eq_of_abs_lt (q : ℚ) (k : ℤ) (h : |q - k| < 1/2) : rint q = k := by
  rcases abs_lt.mp h with ⟨h1, h2⟩
  by_cases hq : (k : ℚ) ≤ q
  · have hf : ⌊q⌋ = k := Int.floor_eq_iff.mpr ⟨hq, by linarith⟩
    simp only [rint, hf]
    rw [if_pos (by linarith)]
  · push_neg at hq
    have hf : ⌊q⌋ = k - 1 := by
      refine Int.floor_eq_iff.mpr ⟨by push_cast; linarith, by push_cast; linarith⟩
    simp only [rint, hf]
    rw [if_neg (by push_cast; linarith), if_pos (by push_cast; linarith)]
    ring

theorem formatFixed_eval (width prec : ℕ) (x : ℚ) (k : ℤ) (h : rint (x * 10 ^ prec) = k) :
    formatFixed width prec x =
      padLeft width ((if k < 0 then "-" else "") ++
        (toString (k.natAbs / 10 ^ prec) ++ "." ++
          padZeroLeft prec (toString (k.natAbs % 10 ^ prec)))) := by
  simp only [formatFixed, h]

theorem format_trades_singleton (t : Trade) : format_trades [t] = tradeLine t := by
  simp [format_trades, String.intercalate, String.intercalate.go]

theorem tradeLine_spec_example :
    tradeLine ⟨6, 3950072 + 95/100, 134147/100000000, 5298 + 91/100⟩ =
      "Trade 6        3950072.95   0.00134147          5298.91" := by
  unfold tradeLine
  rw [formatFixed_eval 15 2 _ 395007295 (rint_eq_of_abs_lt _ _ (by norm_num)),
    formatFixed_eval 11 8 _ 134147 (rint_eq_of_abs_lt _ _ (by norm_num)),
    formatFixed_eval 15 2 _ 529891 (rint_eq_of_abs_lt _ _ (by norm_num))]
  decide

theorem rateInBounds_iff (min_rate max_rate r : ℚ) :
    rateInBounds min_rate max_rate r = true ↔ (min_rate ≤ r ∧ r ≤ max_rate) := by
  simp [rateInBounds]

theorem rateInBounds_false_iff (min_rate max_rate r : ℚ) :
    rateInBounds min_rate max_rate r = false ↔ ¬(min_rate ≤ r ∧ r ≤ max_rate) := by
  rw [← rateInBounds_iff]
  simp

theorem checkBounds_ok (min_rate max_rate : ℚ) (p : ℚ × ℚ)
    (h1 : min_rate ≤ p.1 ∧ p.1 ≤ max_rate) (h2 : min_rate ≤ p.2 ∧ p.2 ≤ max_rate) :
    checkBounds min_rate max_rate p = .ok p := by
  unfold checkBounds
  rw [if_neg, if_neg]
  · simp [rateInBounds_iff, h2]
  · simp [rateInBounds_iff, h1]

theorem checkBounds_error_fst (min_rate max_rate : ℚ) (p : ℚ × ℚ)
    (h1 : ¬(min_rate ≤ p.1 ∧ p.1 ≤ max_rate)) :
    checkBounds min_rate max_rate p = .error (.rateOutOfBounds min_rate max_rate p.1) := by
  unfold checkBounds
  rw [if_pos ((rateInBounds_false_iff _ _ _).mpr h1)]

theorem checkBounds_error_snd (min_rate max_rate : ℚ) (p : ℚ × ℚ)
    (h1 : min_rate ≤ p.1 ∧ p.1 ≤ max_rate) (h2 : ¬(min_rate ≤ p.2 ∧ p.2 ≤ max_rate)) :
    checkBounds min_rate max_rate p = .error (.rateOutOfBounds min_rate max_rate p.2) := by
  unfold checkBounds
  rw [if_neg, if_pos ((rateInBounds_false_iff _ _ _).mpr h2)]
  simp [rateInBounds_iff, h1]

theorem generate_trades_twoTrades (txs : List (ℚ × ℚ)) (min_rate max_rate r1 r2 S C : ℚ)
    (add : Option (ℚ × ℚ))
    (hcr : checkRates add min_rate max_rate = .ok (r1, r2))
    (hagg : aggregates txs = (S, C))
    (hnz : ¬(S = 0 ∧ C = 0))
    (hout : outsideBounds (roundTo 8 min_rate) (roundTo 8 max_rate) (candidateRate S C) = true)
    (hpost : |(postSums S C (twoTrades S C r1 r2 txs.length)).2| < 1/100) :
    generate_trades txs min_rate max_rate add = .ok (twoTrades S C r1 r2 txs.length) := by
  have h1 : (aggregates txs).1 = S := by rw [hagg]
  have h2 : (aggregates txs).2 = C := by rw [hagg]
  have hS2 : ∃ k : ℤ, S = (k : ℚ) / 10 ^ 2 := h1 ▸ aggregates_fst_int txs
  rw [generate_trades_ok_unfold txs min_rate max_rate r1 r2 add hcr, h1, h2, if_neg hnz]
  show finishTrades S C (newTrades S C (roundTo 8 min_rate) (roundTo 8 max_rate) r1 r2 txs.length) = _
  unfold newTrades
  rw [hout, if_pos rfl]
  unfold finishTrades
  rw [if_pos ⟨by rw [postSums_twoTrades_fst S C r1 r2 txs.length hS2]; norm_num, hpost⟩]

theorem postSums_twoTrades_snd (S C r1 r2 : ℚ) (n : ℕ) :
    (postSums S C (twoTrades S C r1 r2 n)).2 =
      C + (roundTo 2 (roundTo 2 ((S * r2 - C) / (r1 - r2)) * r1) +
        roundTo 2 (roundTo 2 (-roundTo 2 ((S * r2 - C) / (r1 - r2)) - S) * r2)) := by
  simp only [postSums, twoTrades, List.map_cons, List.map_nil, List.sum_cons,
    List.sum_nil]
  rw [roundTo_idem, roundTo_idem]
  ring


theorem checkRates_error_invalid (add : Option (ℚ × ℚ)) (min_rate max_rate : ℚ) (e : Err)
    (he : checkRates add min_rate max_rate = .error e) :
    e.isInvalidConfiguration = true ∧ Err.mentionsOffending min_rate max_rate add e := by
  rcases add with _ | ⟨a, b⟩
  · simp only [checkRates, checkBounds] at he
    cases hb1 : rateInBounds min_rate max_rate (defaultRates min_rate max_rate).1 with
    | false =>
      rw [if_pos (by rw [hb1])] at he
      injection he with h
      subst h
      exact ⟨rfl, rfl, rfl, (rateInBounds_false_iff _ _ _).mp hb1, Or.inl rfl⟩
    | true =>
      rw [if_neg (by rw [hb1]; simp)] at he
      cases hb2 : rateInBounds min_rate max_rate (defaultRates min_rate max_rate).2 with
      | false =>
        rw [if_pos (by rw [hb2])] at he
        injection he with h
        subst h
        exact ⟨rfl, rfl, rfl, (rateInBounds_false_iff _ _ _).mp hb2, Or.inr rfl⟩
      | true =>
        rw [if_neg (by rw [hb2]; simp)] at he
        cases he
  · simp only [checkRates] at he
    by_cases hab : a = b
    · rw [if_pos hab] at he
      injection he with h
      subst h
      exact ⟨rfl, rfl, hab⟩
    · rw [if_neg hab] at he
      by_cases h0 : a = 0 ∨ b = 0
      · rw [if_pos h0] at he
        injection he with h
        subst h
        exact ⟨rfl, rfl, h0⟩
      · rw [if_neg h0] at he
        simp only [checkBounds] at he
        cases hb1 : rateInBounds min_rate max_rate (a, b).1 with
        | false =>
          rw [if_pos (by rw [hb1])] at he
          injection he with h
          subst h
          exact ⟨rfl, rfl, rfl, (rateInBounds_false_iff _ _ _).mp hb1, Or.inl rfl⟩
        | true =>
          rw [if_neg (by rw [hb1]; simp)] at he
          cases hb2 : rateInBounds min_rate max_rate (a, b).2 with
          | false =>
            rw [if_pos (by rw [hb2])] at he
            injection he with h
            subst h
            exact ⟨rfl, rfl, rfl, (rateInBounds_false_iff _ _ _).mp hb2, Or.inr rfl⟩
          | true =>
            rw [if_neg (by rw [hb2]; simp)] at he
            cases he

theorem checkRates_error_iff (add : Option (ℚ × ℚ)) (min_rate max_rate : ℚ) :
    (∃ e, checkRates add min_rate max_rate = .error e) ↔
      ((∃ a b, add = some (a, b) ∧ (a = b ∨ a = 0 ∨ b = 0)) ∨
        ¬(min_rate ≤ (ratesUsed add min_rate max_rate).1 ∧
            (ratesUsed add min_rate max_rate).1 ≤ max_rate) ∨
        ¬(min_rate ≤ (ratesUsed add min_rate max_rate).2 ∧
            (ratesUsed add min_rate max_rate).2 ≤ max_rate)) := by
  rcases add with _ | ⟨a, b⟩
  · constructor
    · rintro ⟨e, he⟩
      by_cases h1 : min_rate ≤ (defaultRates min_rate max_rate).1 ∧
          (defaultRates min_rate max_rate).1 ≤ max_rate
      · by_cases h2 : min_rate ≤ (defaultRates min_rate max_rate).2 ∧
            (defaultRates min_rate max_rate).2 ≤ max_rate
        · simp only [checkRates] at he
          rw [checkBounds_ok _ _ _ h1 h2] at he
          cases he
        · exact Or.inr (Or.inr h2)
      · exact Or.inr (Or.inl h1)
    · rintro (⟨a, b, hab, _⟩ | h1 | h2)
      · cases hab
      · exact ⟨_, by simp only [checkRates]; exact checkBounds_error_fst _ _ _ h1⟩
      · by_cases h1 : min_rate ≤ (ratesUsed none min_rate max_rate).1 ∧
            (ratesUsed none min_rate max_rate).1 ≤ max_rate
        · exact ⟨_, by simp only [checkRates]; exact checkBounds_error_snd _ _ _ h1 h2⟩
        · exact ⟨_, by simp only [checkRates]; exact checkBounds_error_fst _ _ _ h1⟩
  · constructor
    · rintro ⟨e, he⟩
      by_cases hab : a = b
      · exact Or.inl ⟨a, b, rfl, Or.inl hab⟩
      · by_cases h0 : a = 0 ∨ b = 0
        · rcases h0 with h0 | h0
          · exact Or.inl ⟨a, b, rfl, Or.inr (Or.inl h0)⟩
          · exact Or.inl ⟨a, b, rfl, Or.inr (Or.inr h0)⟩
        · simp only [checkRates, if_neg hab, if_neg h0] at he
          by_cases h1 : min_rate ≤ (a, b).1 ∧ (a, b).1 ≤ max_rate
          · by_cases h2 : min_rate ≤ (a, b).2 ∧ (a, b).2 ≤ max_rate
            · rw [checkBounds_ok _ _ _ h1 h2] at he
              cases he
            · exact Or.inr (Or.inr h2)
          · exact Or.inr (Or.inl h1)
    · rintro (⟨a', b', hab, hcond⟩ | h1 | h2)
      · injection hab with h
        injection h with h1 h2
        subst h1
        subst h2
        rcases hcond with hc | hc | hc
        · exact ⟨Err.equalRates a b, by simp only [checkRates, if_pos hc]⟩
        · by_cases hab : a = b
          · exact ⟨Err.equalRates a b, by simp only [checkRates, if_pos hab]⟩
          · exact ⟨Err.zeroRate a b, by simp only [checkRates, if_neg hab, if_pos (Or.inl hc)]⟩
        · by_cases hab : a = b
          · exact ⟨Err.equalRates a b, by simp only [checkRates, if_pos hab]⟩
          · exact ⟨Err.zeroRate a b, by simp only [checkRates, if_neg hab, if_pos (Or.inr hc)]⟩
      · by_cases hab : a = b
        · exact ⟨Err.equalRates a b, by simp only [checkRates, if_pos hab]⟩
        · by_cases h0 : a = 0 ∨ b = 0
          · exact ⟨Err.zeroRate a b, by simp only [checkRates, if_neg hab, if_pos h0]⟩
          · exact ⟨_, by
              simp only [checkRates, if_neg hab, if_neg h0]
              exact checkBounds_error_fst _ _ _ h1⟩
      · by_cases hab : a = b
        · exact ⟨Err.equalRates a b, by simp only [checkRates, if_pos hab]⟩
        · by_cases h0 : a = 0 ∨ b = 0
          · exact ⟨Err.zeroRate a b, by simp only [checkRates, if_neg hab, if_pos h0]⟩
          · by_cases h1 : min_rate ≤ (ratesUsed (some (a, b)) min_rate max_rate).1 ∧
                (ratesUsed (some (a, b)) min_rate max_rate).1 ≤ max_rate
            · exact ⟨_, by
                simp only [checkRates, if_neg hab, if_neg h0]
                exact checkBounds_error_snd _ _ _ h1 h2⟩
            · exact ⟨_, by
                simp only [checkRates, if_neg hab, if_neg h0]
                exact checkBounds_error_fst _ _ _ h1⟩

/-- C1: the zero-sum post-condition is violated by the code on a valid
configuration: with bounds `[-100, 100]` and fallback rates `(100, -100)`
(distinct, non-zero, within bounds), the input with one transaction
`(notional 0.01, rate 1350)` drives the two-trade path to a final cashflow
sum of `0.5`, so the code's own `assert |cashflow_sum| < 0.01` fails. -/
theorem c1_zero_sum_postcondition_fails :
    checkRates (some (100, -100)) (-100) 100 = .ok (100, -100) ∧
    generate_trades [(1/100, 1350)] (-100) 100 (some (100, -100)) =
      .error (.internalInvariant 0 (1/2)) ∧
    ¬(|(0 : ℚ)| < 1/100 ∧ |(1 : ℚ)/2| < 1/100) := by
  refine ⟨by norm_num [checkRates, checkBounds, rateInBounds], ?_, ?_⟩
  · norm_num [generate_trades, checkRates, checkBounds, rateInBounds, aggregates,
      boundsForDecision, newTrades, candidateRate, outsideBounds, twoTrades, singleTrade,
      postSums, finishTrades, roundTo, rint, -Int.self_sub_floor]
    intro h
    rw [abs_of_pos (by norm_num)] at h
    norm_num at h
  · rintro ⟨-, h⟩
    rw [abs_of_pos (by norm_num)] at h
    norm_num at h

/-- C2: whenever the rounded notional sum `S` is non-zero and the 8-decimal
rounded candidate rate `round(C/S, 8)` lies within the (8-decimal rounded)
`[min_rate, max_rate]` interval, boundaries included, `generate_trades` emits
exactly one trade `(N+1, -S, round(C/S, 8), -C)`. -/
theorem c2_single_trade_path (txs : List (ℚ × ℚ)) (min_rate max_rate r1 r2 S C : ℚ)
    (add : Option (ℚ × ℚ))
    (hcr : checkRates add min_rate max_rate = .ok (r1, r2))
    (hagg : aggregates txs = (S, C))
    (hS : S ≠ 0)
    (hlo : roundTo 8 min_rate ≤ roundTo 8 (C / S))
    (hhi : roundTo 8 (C / S) ≤ roundTo 8 max_rate) :
    generate_trades txs min_rate max_rate add =
      .ok [⟨txs.length + 1, -S, roundTo 8 (C / S), -C⟩] := by
  have h1 : (aggregates txs).1 = S := by rw [hagg]
  have h2 : (aggregates txs).2 = C := by rw [hagg]
  have hS2 : ∃ k : ℤ, S = (k : ℚ) / 10 ^ 2 := h1 ▸ aggregates_fst_int txs
  have hC2 : ∃ k : ℤ, C = (k : ℚ) / 10 ^ 2 := h2 ▸ aggregates_snd_int txs
  rw [generate_trades_ok_unfold txs min_rate max_rate r1 r2 add hcr, h1, h2,
    if_neg (by simp [hS])]
  show finishTrades S C
    (newTrades S C (roundTo 8 min_rate) (roundTo 8 max_rate) r1 r2 txs.length) = _
  have hcand : candidateRate S C = some (roundTo 8 (C / S)) := by
    simp [candidateRate, hS]
  have hout : outsideBounds (roundTo 8 min_rate) (roundTo 8 max_rate)
      (candidateRate S C) = false := by
    rw [hcand]
    simp [outsideBounds, not_lt.mpr hlo, not_lt.mpr hhi]
  unfold newTrades
  rw [hout, if_neg (by simp)]
  unfold finishTrades
  rw [if_pos (by rw [postSums_singleTrade S C txs.length hS2 hC2]; norm_num)]
  rfl

/-- C2 witness: one transaction `(100, 0.05)` with default configuration:
`S = 100`, `C = 5`, candidate rate `0.05` within `[-0.1, 0.1]`, so exactly
one trade `(2, -100, round(0.05, 8), -5)` is emitted. -/
theorem c2_single_trade_path_witness :
    generate_trades [(100, 1/20)] (-1/10) (1/10) none =
      .ok [⟨2, -100, roundTo 8 (5 / 100), -5⟩] :=
  c2_single_trade_path [(100, 1/20)] (-1/10) (1/10) (1/10) (2/25) 100 5 none
    (by norm_num [checkRates, checkBounds, rateInBounds, defaultRates])
    (by norm_num [aggregates, roundTo, rint, Prod.ext_iff, -Int.self_sub_floor])
    (by norm_num)
    (by norm_num [roundTo, rint, -Int.self_sub_floor])
    (by norm_num [roundTo, rint, -Int.self_sub_floor])
/-- C3: on the two-trade path with fallback rates `r1, r2`, `generate_trades`
emits exactly two trades in order (rate `r1` first), with
`n1 = round((S*r2 - C)/(r1 - r2), 2)`, `n2 = round(-n1 - S, 2)`, cashflows
`round(n*r, 2)`, and sequence numbers `N+1`, `N+2`. -/
theorem c3_two_trade_path (txs : List (ℚ × ℚ)) (min_rate max_rate r1 r2 S C n1 n2 : ℚ)
    (add : Option (ℚ × ℚ))
    (hcr : checkRates add min_rate max_rate = .ok (r1, r2))
    (hagg : aggregates txs = (S, C))
    (hnz : ¬(S = 0 ∧ C = 0))
    (hout : outsideBounds (roundTo 8 min_rate) (roundTo 8 max_rate)
      (candidateRate S C) = true)
    (hn1 : n1 = roundTo 2 ((S * r2 - C) / (r1 - r2)))
    (hn2 : n2 = roundTo 2 (-n1 - S))
    (hpost : |C + (roundTo 2 (n1 * r1) + roundTo 2 (n2 * r2))| < 1/100) :
    generate_trades txs min_rate max_rate add =
      .ok [⟨txs.length + 1, n1, r1, roundTo 2 (n1 * r1)⟩,
        ⟨txs.length + 2, n2, r2, roundTo 2 (n2 * r2)⟩] := by
  subst hn2
  subst hn1
  rw [generate_trades_twoTrades txs min_rate max_rate r1 r2 S C add hcr hagg hnz hout
    (by rw [postSums_twoTrades_snd]; exact hpost)]
  rfl

/-- C3 witness: one transaction `(100, 0.5)` with default configuration:
`S = 100`, `C = 50`, candidate rate `0.5` above `max_rate = 0.1`, so the two
trades `(2, -2100, 0.1, -210)` and `(3, 2000, 0.08, 160)` are emitted. -/
theorem c3_two_trade_path_witness :
    generate_trades [(100, 1/2)] (-1/10) (1/10) none =
      .ok [⟨2, -2100, 1/10, roundTo 2 (-2100 * (1/10))⟩,
        ⟨3, 2000, 2/25, roundTo 2 (2000 * (2/25))⟩] :=
  c3_two_trade_path [(100, 1/2)] (-1/10) (1/10) (1/10) (2/25) 100 50 (-2100) 2000 none
    (by norm_num [checkRates, checkBounds, rateInBounds, defaultRates])
    (by norm_num [aggregates, roundTo, rint, Prod.ext_iff, -Int.self_sub_floor])
    (by norm_num)
    (by norm_num [outsideBounds, candidateRate, roundTo, rint, -Int.self_sub_floor])
    (by norm_num [roundTo, rint, -Int.self_sub_floor])
    (by norm_num [roundTo, rint, -Int.self_sub_floor])
    (by norm_num [roundTo, rint, -Int.self_sub_floor])

/-- C4 counterexample: an input whose rounded notional and cashflow sums are
both exactly zero, yet with equal supplied fallback rates the function raises
the validation error instead of returning the empty list, so the result is
not independent of the fallback rates. -/
theorem c4_counterexample :
    aggregates [(100, 1/20), (-100, 1/20)] = (0, 0) ∧
    generate_trades [(100, 1/20), (-100, 1/20)] (-1/10) (1/10) (some (1/20, 1/20)) =
      .error (.equalRates (1/20) (1/20)) ∧
    generate_trades [(100, 1/20), (-100, 1/20)] (-1/10) (1/10) (some (1/20, 1/20)) ≠
      .ok [] := by
  refine ⟨by norm_num [aggregates, roundTo, rint, Prod.ext_iff, -Int.self_sub_floor],
    by norm_num [generate_trades, checkRates], ?_⟩
  norm_num [generate_trades, checkRates]
  exact fun hcontra => Except.noConfusion hcontra

/-- C4 (amended): for every input whose rounded notional and cashflow sums are
both exactly zero, and every configuration that passes validation,
`generate_trades` returns the empty sequence. -/
theorem c4_no_op_on_zero_sums (txs : List (ℚ × ℚ)) (min_rate max_rate r1 r2 : ℚ)
    (add : Option (ℚ × ℚ))
    (hcr : checkRates add min_rate max_rate = .ok (r1, r2))
    (hS : (aggregates txs).1 = 0) (hC : (aggregates txs).2 = 0) :
    generate_trades txs min_rate max_rate add = .ok [] := by
  rw [generate_trades_ok_unfold txs min_rate max_rate r1 r2 add hcr, if_pos ⟨hS, hC⟩]

/-- C4 witness: the empty transaction list with the default configuration has
zero aggregates and produces no trades. -/
theorem c4_no_op_on_zero_sums_witness :
    generate_trades [] (-1/10) (1/10) none = .ok [] :=
  c4_no_op_on_zero_sums [] (-1/10) (1/10) (1/10) (2/25) none
    (by norm_num [checkRates, checkBounds, rateInBounds, defaultRates])
    (by norm_num [aggregates, roundTo, rint, -Int.self_sub_floor])
    (by norm_num [aggregates, roundTo, rint, -Int.self_sub_floor])

/-- C5: when the rounded notional sum is zero and the rounded cashflow sum is
non-zero, the candidate rate is the infinite marker (`none`) and
`generate_trades` unconditionally takes the two-trade path. -/
theorem c5_zero_notional_forces_two_trades (txs : List (ℚ × ℚ))
    (min_rate max_rate r1 r2 S C : ℚ) (add : Option (ℚ × ℚ))
    (hcr : checkRates add min_rate max_rate = .ok (r1, r2))
    (hagg : aggregates txs = (S, C))
    (hS : S = 0) (hC : C ≠ 0)
    (hpost : |(postSums S C (twoTrades S C r1 r2 txs.length)).2| < 1/100) :
    candidateRate S C = none ∧
    generate_trades txs min_rate max_rate add = .ok (twoTrades S C r1 r2 txs.length) := by
  have hcand : candidateRate S C = none := by simp [candidateRate, hS]
  refine ⟨hcand, generate_trades_twoTrades txs min_rate max_rate r1 r2 S C add hcr hagg
    (fun h => hC h.2) ?_ hpost⟩
  rw [hcand]
  rfl

/-- C5 witness: transactions `(100, 0.06)` and `(-100, 0.01)` net to
`S = 0`, `C = 5`; with the default configuration the two-trade path is
forced, with trades at rates `0.1` and `0.08`. -/
theorem c5_zero_notional_forces_two_trades_witness :
    candidateRate 0 5 = none ∧
    generate_trades [(100, 3/50), (-100, 1/100)] (-1/10) (1/10) none =
      .ok (twoTrades 0 5 (1/10) (2/25) 2) :=
  c5_zero_notional_forces_two_trades [(100, 3/50), (-100, 1/100)] (-1/10) (1/10)
    (1/10) (2/25) 0 5 none
    (by norm_num [checkRates, checkBounds, rateInBounds, defaultRates])
    (by norm_num [aggregates, roundTo, rint, Prod.ext_iff, -Int.self_sub_floor])
    rfl
    (by norm_num)
    (by norm_num [postSums, twoTrades, roundTo, rint, -Int.self_sub_floor])
/-- C6: an `InvalidConfiguration` failure is raised exactly when a supplied
fallback pair has equal rates, contains a zero rate, or a rate of the pair to
be used (supplied or default) lies outside `[min_rate, max_rate]`; the error
carries the offending values, and it is raised independently of the input
transactions (before any aggregate computation). -/
theorem c6_invalid_configuration (min_rate max_rate : ℚ) (add : Option (ℚ × ℚ)) :
    ((∃ e, checkRates add min_rate max_rate = .error e ∧
        e.isInvalidConfiguration = true) ↔
      ((∃ a b, add = some (a, b) ∧ (a = b ∨ a = 0 ∨ b = 0)) ∨
        ¬(min_rate ≤ (ratesUsed add min_rate max_rate).1 ∧
            (ratesUsed add min_rate max_rate).1 ≤ max_rate) ∨
        ¬(min_rate ≤ (ratesUsed add min_rate max_rate).2 ∧
            (ratesUsed add min_rate max_rate).2 ≤ max_rate))) ∧
    (∀ e, checkRates add min_rate max_rate = .error e →
      e.isInvalidConfiguration = true ∧ Err.mentionsOffending min_rate max_rate add e ∧
      ∀ txs, generate_trades txs min_rate max_rate add = .error e) := by
  constructor
  · rw [← checkRates_error_iff add min_rate max_rate]
    constructor
    · rintro ⟨e, he, -⟩
      exact ⟨e, he⟩
    · rintro ⟨e, he⟩
      exact ⟨e, he, (checkRates_error_invalid add min_rate max_rate e he).1⟩
  · intro e he
    exact ⟨(checkRates_error_invalid add min_rate max_rate e he).1,
      (checkRates_error_invalid add min_rate max_rate e he).2,
      fun txs => generate_trades_error_unfold txs min_rate max_rate add e he⟩

/-- C6 witness: equal supplied fallback rates `(0.02324343, 0.02324343)` make
`generate_trades` fail with the equal-rates error for any input, here the
empty transaction list. -/
theorem c6_invalid_configuration_witness :
    generate_trades [] (-1/10) (1/10) (some (2324343/100000000, 2324343/100000000)) =
      .error (.equalRates (2324343/100000000) (2324343/100000000)) :=
  ((c6_invalid_configuration (-1/10) (1/10)
      (some (2324343/100000000, 2324343/100000000))).2
    (.equalRates (2324343/100000000) (2324343/100000000))
    (by norm_num [checkRates])).2.2 []

/-- C7: the default fallback pair `(max_rate, max_rate - 0.1*(max_rate -
min_rate))` lies inside `[min_rate, max_rate]` and has distinct rates with a
non-zero difference whenever `min_rate < max_rate`. -/
theorem c7_default_rates_valid (min_rate max_rate : ℚ) (h : min_rate < max_rate) :
    min_rate ≤ (defaultRates min_rate max_rate).1 ∧
    (defaultRates min_rate max_rate).1 ≤ max_rate ∧
    min_rate ≤ (defaultRates min_rate max_rate).2 ∧
    (defaultRates min_rate max_rate).2 ≤ max_rate ∧
    (defaultRates min_rate max_rate).1 ≠ (defaultRates min_rate max_rate).2 ∧
    (defaultRates min_rate max_rate).1 - (defaultRates min_rate max_rate).2 ≠ 0 := by
  simp only [defaultRates]
  refine ⟨le_of_lt h, le_refl _, by linarith, by linarith, ?_, ?_⟩
  · intro hc
    nlinarith [hc]
  · intro hc
    nlinarith [hc]

/-- C7 witness: the default bounds `[-0.1, 0.1]` give the pair
`(0.1, 0.08)`, inside the interval and distinct. -/
theorem c7_default_rates_valid_witness :
    (-1/10 : ℚ) ≤ (defaultRates (-1/10) (1/10)).1 ∧
    (defaultRates (-1/10 : ℚ) (1/10)).1 ≤ 1/10 ∧
    (-1/10 : ℚ) ≤ (defaultRates (-1/10) (1/10)).2 ∧
    (defaultRates (-1/10 : ℚ) (1/10)).2 ≤ 1/10 ∧
    (defaultRates (-1/10 : ℚ) (1/10)).1 ≠ (defaultRates (-1/10) (1/10)).2 ∧
    (defaultRates (-1/10 : ℚ) (1/10)).1 - (defaultRates (-1/10) (1/10)).2 ≠ 0 :=
  c7_default_rates_valid (-1/10) (1/10) (by norm_num)

/-- C8 counterexample: rendering the example trade
`(6, 3950072.95, 0.00134147, 5298.91)` does not produce the example line
printed in the specification (which pads the sequence-number column four
characters wider than the code's format string). -/
theorem c8_counterexample :
    format_trades [⟨6, 3950072 + 95/100, 134147/100000000, 5298 + 91/100⟩] ≠
      "Trade 6            3950072.95   0.00134147          5298.91" := by
  rw [format_trades_singleton, tradeLine_spec_example]
  decide

/-- C8 (amended): the renderer emits one line per trade in the fixed layout
(label, sequence number, notional width 15 with 2 decimals, rate width 11
with 8 decimals, cashflow width 15 with 2 decimals); the example trade
renders as `Trade 6        3950072.95   0.00134147          5298.91` (eight
spaces after the label, not twelve as in the specification example), and the
empty sequence renders to empty output with nothing printed. -/
theorem c8_format_layout :
    (∀ ts : List Trade, format_trades ts = String.intercalate "\n" (ts.map tradeLine)) ∧
    (∀ t : Trade, tradeLine t = "Trade " ++ toString t.tradeNo ++ "   " ++
      formatFixed 15 2 t.notional ++ "  " ++ formatFixed 11 8 t.rate ++ "  " ++
      formatFixed 15 2 t.cashflow) ∧
    format_trades [⟨6, 3950072 + 95/100, 134147/100000000, 5298 + 91/100⟩] =
      "Trade 6        3950072.95   0.00134147          5298.91" ∧
    format_trades [] = "" ∧
    print_trades [] = "" := by
  refine ⟨fun ts => rfl, fun t => rfl, ?_, rfl, rfl⟩
  rw [format_trades_singleton, tradeLine_spec_example]

/-- C9: `generate_trades` is deterministic: two calls with identical input
transaction sequences and identical configuration return identical results. -/
theorem c9_deterministic (txs txs' : List (ℚ × ℚ))
    (min_rate min_rate' max_rate max_rate' : ℚ) (add add' : Option (ℚ × ℚ))
    (ht : txs = txs') (hmn : min_rate = min_rate') (hmx : max_rate = max_rate')
    (ha : add = add') :
    generate_trades txs min_rate max_rate add =
      generate_trades txs' min_rate' max_rate' add' := by
  subst ht hmn hmx ha
  rfl

/-- C9 witness: two identical calls on a concrete input agree. -/
theorem c9_deterministic_witness :
    generate_trades [(100, 1/20)] (-1/10) (1/10) none =
      generate_trades [(100, 1/20)] (-1/10) (1/10) none :=
  c9_deterministic [(100, 1/20)] [(100, 1/20)] (-1/10) (-1/10) (1/10) (1/10) none none
    rfl rfl rfl rfl

/-- C10: the fallback-rate validation tests against the raw `min_rate` and
`max_rate`, while the single-versus-two-trade decision tests against the
8-decimal-rounded bounds; whenever a bound is not a multiple of `10^-8`, the
two effective bounds pairs differ. -/
theorem c10_rounded_bounds_for_decision (min_rate max_rate : ℚ)
    (h : (¬ ∃ k : ℤ, min_rate = (k : ℚ) / 10 ^ 8) ∨
      (¬ ∃ k : ℤ, max_rate = (k : ℚ) / 10 ^ 8)) :
    (∀ r, rateInBounds min_rate max_rate r = true ↔ (min_rate ≤ r ∧ r ≤ max_rate)) ∧
    (∀ c, outsideBounds (boundsForDecision min_rate max_rate).1
        (boundsForDecision min_rate max_rate).2 (some c) = false ↔
      ((boundsForDecision min_rate max_rate).1 ≤ c ∧
        c ≤ (boundsForDecision min_rate max_rate).2)) ∧
    boundsForDecision min_rate max_rate ≠ (min_rate, max_rate) := by
  refine ⟨rateInBounds_iff min_rate max_rate, ?_, ?_⟩
  · intro c
    simp [outsideBounds, not_lt]
  · intro hc
    have h1 : roundTo 8 min_rate = min_rate := (Prod.ext_iff.mp hc).1
    have h2 : roundTo 8 max_rate = max_rate := (Prod.ext_iff.mp hc).2
    rcases h with h | h
    · refine h ⟨rint (min_rate * 10 ^ 8), ?_⟩
      conv_lhs => rw [← h1]
      rfl
    · refine h ⟨rint (max_rate * 10 ^ 8), ?_⟩
      conv_lhs => rw [← h2]
      rfl

/-- C10 witness: `max_rate = 0.001341465` has nine decimal places, so the
decision bounds differ from the raw bounds. -/
theorem c10_rounded_bounds_for_decision_witness :
    boundsForDecision (-1/10) (1341465/1000000000) ≠ (-1/10, 1341465/1000000000) := by
  refine (c10_rounded_bounds_for_decision (-1/10) (1341465/1000000000) (Or.inr ?_)).2.2
  rintro ⟨k, hk⟩
  rw [div_eq_div_iff (by norm_num) (by norm_num)] at hk
  have hz : (1341465 : ℤ) * 10 ^ 8 = k * 10 ^ 9 := by exact_mod_cast hk
  norm_num at hz
  omega

end GenSwapTrades
